import Mathlib

/-!
Verification development for a small trading backend (a Flask application
in app.py).  The core logic is embedded shallowly: Python dictionaries
holding orders and positions become association lists, Python numbers
become rationals, and the one place where a Python TypeError can escape
the core (adding a number to a string inside the portfolio update) is
modelled explicitly with a raised flag that carries the partially
mutated state, exactly as the mutations persist across a Python raise.
Timestamps (createdAt, executedAt) and the textual uuid identifiers are
not modelled; order ids are drawn from a counter, which preserves the
only property the code relies on: freshness.
-/

/-- A JSON value that can sit in the price field of an order: either a
number or a non-numeric value (represented by a string, the case the
tests of the specification mention).  Python multiplication of a string
by an integer repeats the string; adding a number to a string raises a
TypeError. -/
inductive PValue where
  | num (x : ℚ)
  | str (s : String)
deriving DecidableEq, Repr

/-- Python string repetition s * n (empty for n below one). -/
def strRepeat (s : String) (n : ℤ) : String :=
  String.join (List.replicate n.toNat s)

/-- Python v * n for a price value v and an integer quantity n. -/
def pyMul (v : PValue) (n : ℤ) : PValue :=
  match v with
  | .num x => .num (x * (n : ℚ))
  | .str s => .str (strRepeat s n)

structure Instrument where
  symbol : String
  exchange : String
  instrumentType : String
  lastTradedPrice : ℚ
deriving DecidableEq, Repr

/-- The static instrument catalog from app.py. -/
def instruments : List Instrument :=
  [ ⟨"AAPL", "NASDAQ", "STOCK", 175.50⟩,
    ⟨"GOOGL", "NASDAQ", "STOCK", 140.25⟩,
    ⟨"MSFT", "NASDAQ", "STOCK", 380.00⟩,
    ⟨"TSLA", "NASDAQ", "STOCK", 245.75⟩,
    ⟨"AMZN", "NASDAQ", "STOCK", 155.30⟩ ]

/-- get_instrument_by_symbol from app.py: first instrument whose symbol
matches, none otherwise. -/
def get_instrument_by_symbol (symbol : String) : Option Instrument :=
  instruments.find? (fun i => i.symbol == symbol)

/-- One portfolio entry (the holding_object dictionaries of app.py). -/
structure Holding where
  symbol : String
  quantity : ℤ
  averagePrice : ℚ
  totalInvested : ℚ
deriving DecidableEq, Repr

/-- The portfolio dictionary, as an association list keyed by symbol in
insertion order. -/
abbrev Portfolio := List Holding

/-- Dictionary lookup portfolio[symbol]. -/
def pfLookup (p : Portfolio) (s : String) : Option Holding :=
  p.find? (fun h => h.symbol == s)

/-- Dictionary write portfolio[symbol] = h: replace the entry with the
same symbol, or append a new one. -/
def pfSet (p : Portfolio) (h : Holding) : Portfolio :=
  if p.any (fun x => x.symbol == h.symbol) then
    p.map (fun x => if x.symbol == h.symbol then h else x)
  else p ++ [h]

/-- Dictionary deletion del portfolio[symbol]. -/
def pfDelete (p : Portfolio) (s : String) : Portfolio :=
  p.filter (fun h => ¬ h.symbol == s)

/-- Result of update_portfolio: the portfolio the globals hold
afterwards, and whether a TypeError escaped.  A Python raise does not
undo earlier dictionary mutations, so the raised case carries them. -/
structure UPResult where
  portfolio : Portfolio
  raised : Bool
deriving DecidableEq, Repr

/-- update_portfolio from app.py.  A missing symbol first gets a fresh
zero holding.  BUY recomputes the weighted average cost; with a
non-numeric price the addition of number and string raises after the
zero holding (if any) was already inserted.  SELL decrements the
quantity, deletes the entry when the result is zero or negative, and
otherwise recomputes totalInvested from the unchanged average price. -/
def update_portfolio (p : Portfolio) (symbol : String) (order_type : String)
    (quantity : ℤ) (price : PValue) : UPResult :=
  let p1 := if pfLookup p symbol = none then pfSet p ⟨symbol, 0, 0, 0⟩ else p
  let holding := (pfLookup p1 symbol).getD ⟨symbol, 0, 0, 0⟩
  if order_type = "BUY" then
    match price with
    | .num x =>
      let total_cost := (holding.quantity : ℚ) * holding.averagePrice + (quantity : ℚ) * x
      let new_quantity := holding.quantity + quantity
      let avg := if 0 < new_quantity then total_cost / (new_quantity : ℚ) else 0
      ⟨pfSet p1 ⟨symbol, new_quantity, avg, total_cost⟩, false⟩
    | .str _ => ⟨p1, true⟩
  else if order_type = "SELL" then
    let q2 := holding.quantity - quantity
    if q2 ≤ 0 then ⟨pfDelete p1 symbol, false⟩
    else ⟨pfSet p1 ⟨symbol, q2, holding.averagePrice, (q2 : ℚ) * holding.averagePrice⟩, false⟩
  else ⟨p1, false⟩

/-- A candidate order body as received by the POST handler; an absent
JSON field is none. -/
structure OrderData where
  symbol : Option String
  orderType : Option String
  orderStyle : Option String
  quantity : Option ℤ
  price : Option PValue
deriving DecidableEq, Repr

/-- validate_order from app.py: returns the is_valid flag and the list
of error messages.  Missing required fields short-circuit the remaining
checks; otherwise all checks run and their messages accumulate.  The
enum lists in the Python messages are rendered without quote marks. -/
def validate_order (d : OrderData) : Bool × List String :=
  let missing :=
    (if d.symbol = none then ["Missing required field: symbol"] else []) ++
    (if d.orderType = none then ["Missing required field: orderType"] else []) ++
    (if d.orderStyle = none then ["Missing required field: orderStyle"] else []) ++
    (if d.quantity = none then ["Missing required field: quantity"] else [])
  if missing ≠ [] then (false, missing)
  else
    let errors :=
      (if d.quantity.getD 0 ≤ 0 then ["Quantity must be greater than 0"] else []) ++
      (if d.orderType.getD "" ≠ "BUY" ∧ d.orderType.getD "" ≠ "SELL" then
        ["Invalid orderType. Must be one of: [BUY, SELL]"] else []) ++
      (if d.orderStyle.getD "" ≠ "MARKET" ∧ d.orderStyle.getD "" ≠ "LIMIT" then
        ["Invalid orderStyle. Must be one of: [MARKET, LIMIT]"] else []) ++
      (if d.orderStyle.getD "" = "LIMIT" ∧ d.price = none then
        ["Price is mandatory for LIMIT orders"] else []) ++
      (if get_instrument_by_symbol (d.symbol.getD "") = none then
        ["Instrument " ++ d.symbol.getD "" ++ " not found"] else [])
    if errors ≠ [] then (false, errors) else (true, [])

/-- A stored order record.  createdAt and executedAt timestamps are not
modelled; orderId is a counter value standing in for the uuid. -/
structure Order where
  orderId : ℕ
  symbol : String
  orderType : String
  orderStyle : String
  quantity : ℤ
  price : Option PValue
  status : String
  executionPrice : Option PValue
deriving DecidableEq, Repr

/-- A trade record; tradeId stands in for the uuid. -/
structure Trade where
  tradeId : ℕ
  orderId : ℕ
  symbol : String
  orderType : String
  quantity : ℤ
  price : PValue
  totalValue : PValue
deriving DecidableEq, Repr

/-- The global mutable state of app.py: the orders dictionary (as an
association list keyed by orderId in insertion order), the trades list,
the portfolio, and the id counter supplying fresh order ids. -/
structure SysState where
  orders : List Order
  trades : List Trade
  portfolio : Portfolio
  nextId : ℕ
deriving DecidableEq, Repr

/-- Dictionary lookup orders[order_id]. -/
def ordLookup (os : List Order) (oid : ℕ) : Option Order :=
  os.find? (fun o => o.orderId == oid)

/-- Dictionary write orders[o.orderId] = o. -/
def ordSet (os : List Order) (o : Order) : List Order :=
  if os.any (fun x => x.orderId == o.orderId) then
    os.map (fun x => if x.orderId == o.orderId then o else x)
  else os ++ [o]

/-- execute_order from app.py, acting on the global state.  The boolean
is true when a TypeError escaped from update_portfolio; as in Python,
the order mutation and the appended trade survive the raise.  The
missing-order case mirrors the KeyError a raw dictionary access would
raise before any mutation (unreachable from place_order).  Validation
guarantees the instrument exists and that a LIMIT order carries a
price, so the defaults behind getD are never read on reachable
states. -/
def execute_order (st : SysState) (order_id : ℕ) : SysState × Bool :=
  match ordLookup st.orders order_id with
  | none => (st, true)
  | some order =>
    let instrument := (get_instrument_by_symbol order.symbol).getD ⟨"", "", "", 0⟩
    let execution_price : PValue :=
      if order.orderStyle = "MARKET" then .num instrument.lastTradedPrice
      else order.price.getD (.num 0)
    let order1 : Order := { order with status := "EXECUTED", executionPrice := some execution_price }
    let orders1 := ordSet st.orders order1
    let trade : Trade :=
      { tradeId := st.trades.length, orderId := order_id, symbol := order.symbol,
        orderType := order.orderType, quantity := order.quantity,
        price := execution_price, totalValue := pyMul execution_price order.quantity }
    let trades1 := st.trades ++ [trade]
    let up := update_portfolio st.portfolio order.symbol order.orderType order.quantity execution_price
    ({ orders := orders1, trades := trades1, portfolio := up.portfolio, nextId := st.nextId }, up.raised)

/-- Outcome of the POST handler place_order: HTTP 400 with the list of
validation errors, HTTP 201, or HTTP 500 after a caught exception. -/
inductive PlaceResult where
  | rejected (errors : List String)
  | ok
  | serverError
deriving DecidableEq, Repr

/-- place_order from app.py: validate, store the new order (status NEW,
immediately set to PLACED), then auto-execute.  On a validation failure
nothing is stored.  An exception inside execution is caught at the
boundary and answered with a 500, leaving the mutations made so far in
place. -/
def place_order (st : SysState) (d : OrderData) : PlaceResult × SysState :=
  let v := validate_order d
  if v.1 = false then (.rejected v.2, st)
  else
    let order_id := st.nextId
    let order : Order :=
      { orderId := order_id, symbol := d.symbol.getD "", orderType := d.orderType.getD "",
        orderStyle := d.orderStyle.getD "", quantity := d.quantity.getD 0,
        price := d.price, status := "NEW", executionPrice := none }
    let st1 : SysState := { st with orders := ordSet st.orders order, nextId := st.nextId + 1 }
    let st2 : SysState := { st1 with orders := ordSet st1.orders { order with status := "PLACED" } }
    let r := execute_order st2 order_id
    if r.2 then (.serverError, r.1) else (.ok, r.1)

/-- The empty startup state. -/
def initState : SysState := ⟨[], [], [], 0⟩

/-- The state after a sequence of POST order submissions. -/
def runOrders (ds : List OrderData) : SysState :=
  ds.foldl (fun st d => (place_order st d).2) initState

/-- One row of the portfolio report produced by the GET portfolio
handler. -/
structure ReportEntry where
  symbol : String
  quantity : ℤ
  averagePrice : ℚ
  currentPrice : ℚ
  currentValue : ℚ
  profitLoss : ℚ
  profitLossPercent : ℚ
deriving DecidableEq, Repr

/-- Rounding to two decimal places.  Python rounds floats half to even;
no claim depends on the tie behaviour, so round-half-up on rationals is
used. -/
def round2 (x : ℚ) : ℚ := ((round (x * 100) : ℤ) : ℚ) / 100

/-- The holdings list computed by get_portfolio: one derived row per
position, recomputed on demand.  Portfolio symbols always resolve to an
instrument on reachable states, so the getD default is never read. -/
def portfolio_report (p : Portfolio) : List ReportEntry :=
  p.map (fun holding =>
    let current_price := ((get_instrument_by_symbol holding.symbol).getD ⟨"", "", "", 0⟩).lastTradedPrice
    let current_value := (holding.quantity : ℚ) * current_price
    { symbol := holding.symbol, quantity := holding.quantity,
      averagePrice := round2 holding.averagePrice, currentPrice := current_price,
      currentValue := round2 current_value,
      profitLoss := round2 (current_value - holding.totalInvested),
      profitLossPercent :=
        if (0 : ℚ) < holding.totalInvested then
          round2 ((current_value - holding.totalInvested) / holding.totalInvested * 100)
        else 0 })

/-- The accounting invariant of the specification: the average price of
every position with positive quantity is its invested total divided by
its quantity. -/
def pfInvariant (p : Portfolio) : Prop :=
  ∀ h ∈ p, 0 < h.quantity → h.averagePrice = h.totalInvested / (h.quantity : ℚ)

instance (p : Portfolio) : Decidable (pfInvariant p) := by
  unfold pfInvariant; infer_instance

/-! Helper lemmas about the dictionary operations. -/

theorem pfLookup_cons (a : Holding) (t : Portfolio) (s : String) :
    pfLookup (a :: t) s = if a.symbol = s then some a else pfLookup t s := by
  by_cases h : a.symbol = s <;>
    simp [pfLookup, List.find?_cons, h]

theorem pfLookup_symbol {p : Portfolio} {s : String} {h : Holding}
    (hf : pfLookup p s = some h) : h.symbol = s := by
  have := List.find?_some hf
  simpa using this

theorem pfLookup_eq_none {p : Portfolio} {s : String} :
    pfLookup p s = none ↔ ∀ h ∈ p, h.symbol ≠ s := by
  simp [pfLookup, List.find?_eq_none]

theorem pfLookup_pfSet_self (p : Portfolio) (h : Holding) :
    pfLookup (pfSet p h) h.symbol = some h := by
  unfold pfSet pfLookup
  split
  case isTrue hany =>
    rw [List.find?_map]
    have hpred : ((fun x : Holding => x.symbol == h.symbol) ∘
        (fun x : Holding => if x.symbol == h.symbol then h else x)) =
        (fun x : Holding => x.symbol == h.symbol) := by
      funext x
      by_cases hx : x.symbol = h.symbol <;> simp [hx]
    rw [hpred]
    obtain ⟨x, hx, hxs⟩ := List.any_eq_true.mp hany
    obtain ⟨y, hy⟩ := Option.isSome_iff_exists.mp
      ((List.find?_isSome (p := fun x : Holding => x.symbol == h.symbol)).mpr
        ⟨x, hx, hxs⟩)
    rw [hy]
    have : y.symbol = h.symbol := by simpa using List.find?_some hy
    simp [Option.map_some, this]
  case isFalse hany =>
    rw [List.find?_append]
    have h1 : List.find? (fun x : Holding => x.symbol == h.symbol) p = none := by
      rw [List.find?_eq_none]
      intro x hx
      exact fun hc => hany (List.any_eq_true.mpr ⟨x, hx, hc⟩)
    simp [h1]

theorem pfLookup_pfSet_ne (p : Portfolio) (h : Holding) (s : String)
    (hs : s ≠ h.symbol) : pfLookup (pfSet p h) s = pfLookup p s := by
  have hs2 : ¬ h.symbol = s := fun h2 => hs h2.symm
  unfold pfSet pfLookup
  split
  · rw [List.find?_map]
    have hpred : ((fun x : Holding => x.symbol == s) ∘
        (fun x : Holding => if x.symbol == h.symbol then h else x)) =
        (fun x : Holding => x.symbol == s) := by
      funext x
      by_cases hx : x.symbol = h.symbol
      · simp [hx, hs2]
      · simp [hx]
    rw [hpred]
    cases hf : List.find? (fun x : Holding => x.symbol == s) p with
    | none => simp
    | some x =>
      have hxs : x.symbol = s := by simpa using List.find?_some hf
      have : ¬ x.symbol = h.symbol := by rw [hxs]; exact hs
      simp [Option.map_some, this]
  · rw [List.find?_append]
    have h2 : List.find? (fun x : Holding => x.symbol == s) [h] = none := by
      simp [List.find?_cons, hs2]
    rw [h2]
    simp

theorem pfLookup_pfDelete_self (p : Portfolio) (s : String) :
    pfLookup (pfDelete p s) s = none := by
  rw [pfLookup_eq_none]
  intro h hmem
  have := (List.mem_filter.mp hmem).2
  simpa using this

theorem pfLookup_pfDelete_ne (p : Portfolio) (s s2 : String)
    (hs : s2 ≠ s) : pfLookup (pfDelete p s) s2 = pfLookup p s2 := by
  induction p with
  | nil => rfl
  | cons a t ih =>
    by_cases ha : a.symbol = s
    · have : ¬ a.symbol = s2 := by rw [ha]; exact fun h2 => hs h2.symm
      simp_all [pfDelete, List.filter_cons, pfLookup_cons]
    · by_cases has : a.symbol = s2 <;>
        simp_all [pfDelete, List.filter_cons, pfLookup_cons]

theorem mem_pfSet {p : Portfolio} {h x : Holding}
    (hx : x ∈ pfSet p h) : x = h ∨ x ∈ p := by
  unfold pfSet at hx
  split at hx
  · rcases List.mem_map.mp hx with ⟨y, hy, hyx⟩
    by_cases hys : y.symbol = h.symbol
    · simp [hys] at hyx; exact Or.inl hyx.symm
    · simp [hys] at hyx; exact Or.inr (hyx ▸ hy)
  · rcases List.mem_append.mp hx with hx | hx
    · exact Or.inr hx
    · simp at hx; exact Or.inl hx

theorem mem_pfDelete {p : Portfolio} {s : String} {x : Holding}
    (hx : x ∈ pfDelete p s) : x ∈ p :=
  (List.mem_filter.mp hx).1

theorem ordSet_fresh (os : List Order) (o : Order)
    (h : ∀ x ∈ os, x.orderId ≠ o.orderId) : ordSet os o = os ++ [o] := by
  unfold ordSet
  rw [if_neg]
  intro hc
  obtain ⟨x, hx, hxs⟩ := List.any_eq_true.mp hc
  exact h x hx (by simpa using hxs)

theorem ordSet_snoc (os : List Order) (o o2 : Order) (oid : ℕ)
    (h : ∀ x ∈ os, x.orderId ≠ oid) (h1 : o.orderId = oid) (h2 : o2.orderId = oid) :
    ordSet (os ++ [o]) o2 = os ++ [o2] := by
  unfold ordSet
  rw [if_pos]
  · rw [List.map_append]
    congr 1
    · conv_rhs => rw [← List.map_id os]
      apply List.map_congr_left
      intro x hx
      rw [if_neg, id]
      simpa [h2] using h x hx
    · simp [h1, h2]
  · apply List.any_eq_true.mpr
    exact ⟨o, by simp, by simp [h1, h2]⟩

theorem ordLookup_snoc (os : List Order) (o : Order) (oid : ℕ)
    (h : ∀ x ∈ os, x.orderId ≠ oid) (hid : o.orderId = oid) :
    ordLookup (os ++ [o]) oid = some o := by
  unfold ordLookup
  rw [List.find?_append]
  have h1 : List.find? (fun x : Order => x.orderId == oid) os = none := by
    rw [List.find?_eq_none]
    intro x hx
    simpa using h x hx
  simp [h1, hid]

/-- The execution price of a validated order body: the catalog price for
MARKET style, the submitted price for LIMIT style. -/
def execPriceOf (d : OrderData) : PValue :=
  if d.orderStyle.getD "" = "MARKET" then
    .num ((get_instrument_by_symbol (d.symbol.getD "")).getD ⟨"", "", "", 0⟩).lastTradedPrice
  else d.price.getD (.num 0)

/-- The order record as it sits in the store after a successful
submission of body d under fresh id oid. -/
def storedOrder (d : OrderData) (oid : ℕ) : Order :=
  { orderId := oid, symbol := d.symbol.getD "", orderType := d.orderType.getD "",
    orderStyle := d.orderStyle.getD "", quantity := d.quantity.getD 0,
    price := d.price, status := "EXECUTED", executionPrice := some (execPriceOf d) }

/-- The trade record created for a submission of body d under fresh id
oid when tid trades already exist. -/
def storedTrade (d : OrderData) (oid tid : ℕ) : Trade :=
  { tradeId := tid, orderId := oid, symbol := d.symbol.getD "",
    orderType := d.orderType.getD "", quantity := d.quantity.getD 0,
    price := execPriceOf d, totalValue := pyMul (execPriceOf d) (d.quantity.getD 0) }

/-- Characterization of the accepted path of place_order: when the body
validates and all stored ids are below the counter, the new state
appends exactly one executed order and one trade, and applies exactly
one portfolio update at the execution price; the response is 500
exactly when that update raised, and 201 otherwise. -/
theorem place_order_accepted (st : SysState) (d : OrderData)
    (hv : (validate_order d).1 = true)
    (hfr : ∀ o ∈ st.orders, o.orderId < st.nextId) :
    place_order st d =
      (if (update_portfolio st.portfolio (d.symbol.getD "") (d.orderType.getD "")
            (d.quantity.getD 0) (execPriceOf d)).raised then .serverError else .ok,
       { orders := st.orders ++ [storedOrder d st.nextId],
         trades := st.trades ++ [storedTrade d st.nextId st.trades.length],
         portfolio := (update_portfolio st.portfolio (d.symbol.getD "") (d.orderType.getD "")
            (d.quantity.getD 0) (execPriceOf d)).portfolio,
         nextId := st.nextId + 1 }) := by
  have hne : ∀ x ∈ st.orders, x.orderId ≠ st.nextId := fun x hx => Nat.ne_of_lt (hfr x hx)
  unfold place_order
  rw [if_neg (by simp [hv])]
  simp only
  rw [ordSet_fresh st.orders
    { orderId := st.nextId, symbol := d.symbol.getD "", orderType := d.orderType.getD "",
      orderStyle := d.orderStyle.getD "", quantity := d.quantity.getD 0, price := d.price,
      status := "NEW", executionPrice := none } hne]
  rw [ordSet_snoc st.orders
    { orderId := st.nextId, symbol := d.symbol.getD "", orderType := d.orderType.getD "",
      orderStyle := d.orderStyle.getD "", quantity := d.quantity.getD 0, price := d.price,
      status := "NEW", executionPrice := none }
    { orderId := st.nextId, symbol := d.symbol.getD "", orderType := d.orderType.getD "",
      orderStyle := d.orderStyle.getD "", quantity := d.quantity.getD 0, price := d.price,
      status := "PLACED", executionPrice := none } st.nextId hne rfl rfl]
  unfold execute_order
  simp only
  rw [ordLookup_snoc st.orders
    { orderId := st.nextId, symbol := d.symbol.getD "", orderType := d.orderType.getD "",
      orderStyle := d.orderStyle.getD "", quantity := d.quantity.getD 0, price := d.price,
      status := "PLACED", executionPrice := none } st.nextId hne rfl]
  simp only
  rw [ordSet_snoc st.orders
    { orderId := st.nextId, symbol := d.symbol.getD "", orderType := d.orderType.getD "",
      orderStyle := d.orderStyle.getD "", quantity := d.quantity.getD 0, price := d.price,
      status := "PLACED", executionPrice := none }
    { orderId := st.nextId, symbol := d.symbol.getD "", orderType := d.orderType.getD "",
      orderStyle := d.orderStyle.getD "", quantity := d.quantity.getD 0, price := d.price,
      status := "EXECUTED",
      executionPrice := some (if d.orderStyle.getD "" = "MARKET" then
        PValue.num ((get_instrument_by_symbol (d.symbol.getD "")).getD ⟨"", "", "", 0⟩).lastTradedPrice
      else d.price.getD (.num 0)) } st.nextId hne rfl rfl]
  unfold storedOrder storedTrade execPriceOf
  split <;> split <;> rfl

theorem pfLookup_pfSet_mk (p : Portfolio) (s : String) (q : ℤ) (a t : ℚ) :
    pfLookup (pfSet p ⟨s, q, a, t⟩) s = some ⟨s, q, a, t⟩ :=
  pfLookup_pfSet_self p ⟨s, q, a, t⟩

theorem pfLookup_pfSet_mk_ne (p : Portfolio) (s s2 : String) (q : ℤ) (a t : ℚ)
    (hs : s2 ≠ s) : pfLookup (pfSet p ⟨s, q, a, t⟩) s2 = pfLookup p s2 :=
  pfLookup_pfSet_ne p ⟨s, q, a, t⟩ s2 hs

theorem update_portfolio_buy_new (p : Portfolio) (s : String) (q : ℤ) (x : ℚ)
    (hf : pfLookup p s = none) :
    update_portfolio p s "BUY" q (.num x) =
      ⟨pfSet (pfSet p ⟨s, 0, 0, 0⟩)
        ⟨s, q, if 0 < q then ((q : ℚ) * x) / ((q : ℤ) : ℚ) else 0, (q : ℚ) * x⟩, false⟩ := by
  simp only [update_portfolio, hf, if_true, reduceCtorEq, reduceIte,
    pfLookup_pfSet_mk, Option.getD_some]
  norm_num

theorem string_sell_not_buy : (("SELL" : String) = "BUY") = False :=
  eq_false (by decide)

theorem string_sell_is_sell : (("SELL" : String) = "SELL") = True :=
  eq_true rfl

theorem update_portfolio_buy_old (p : Portfolio) (s : String) (q : ℤ) (x : ℚ)
    (h : Holding) (hf : pfLookup p s = some h) :
    update_portfolio p s "BUY" q (.num x) =
      ⟨pfSet p ⟨s, h.quantity + q,
        if 0 < h.quantity + q then
          ((h.quantity : ℚ) * h.averagePrice + (q : ℚ) * x) / ((h.quantity + q : ℤ) : ℚ)
        else 0,
        (h.quantity : ℚ) * h.averagePrice + (q : ℚ) * x⟩, false⟩ := by
  simp only [update_portfolio, hf, reduceCtorEq, reduceIte, Option.getD_some]

theorem update_portfolio_buy_str_new (p : Portfolio) (s : String) (q : ℤ) (msg : String)
    (hf : pfLookup p s = none) :
    update_portfolio p s "BUY" q (.str msg) = ⟨pfSet p ⟨s, 0, 0, 0⟩, true⟩ := by
  simp only [update_portfolio, hf, reduceCtorEq, reduceIte]

theorem update_portfolio_buy_str_old (p : Portfolio) (s : String) (q : ℤ) (msg : String)
    (h : Holding) (hf : pfLookup p s = some h) :
    update_portfolio p s "BUY" q (.str msg) = ⟨p, true⟩ := by
  simp only [update_portfolio, hf, reduceCtorEq, reduceIte]

theorem update_portfolio_sell_old (p : Portfolio) (s : String) (q : ℤ) (pr : PValue)
    (h : Holding) (hf : pfLookup p s = some h) :
    update_portfolio p s "SELL" q pr =
      if h.quantity - q ≤ 0 then ⟨pfDelete p s, false⟩
      else ⟨pfSet p ⟨s, h.quantity - q, h.averagePrice,
        ((h.quantity - q : ℤ) : ℚ) * h.averagePrice⟩, false⟩ := by
  cases pr <;>
    simp only [update_portfolio, hf, reduceCtorEq, reduceIte, Option.getD_some,
      string_sell_not_buy, string_sell_is_sell, if_false, if_true]

theorem update_portfolio_sell_new (p : Portfolio) (s : String) (q : ℤ) (pr : PValue)
    (hf : pfLookup p s = none) (hq : 0 < q) :
    update_portfolio p s "SELL" q pr = ⟨pfDelete (pfSet p ⟨s, 0, 0, 0⟩) s, false⟩ := by
  cases pr <;>
    simp only [update_portfolio, hf, reduceCtorEq, reduceIte,
      pfLookup_pfSet_mk, Option.getD_some,
      string_sell_not_buy, string_sell_is_sell, if_false, if_true] <;>
    rw [if_pos (by omega : (0 : ℤ) - q ≤ 0)]

/-! Claim C1.  validate_order performs no holdings check at all: it does
not even receive the portfolio.  A SELL for a symbol with no existing
position passes validation and is executed with HTTP 201. -/

/-- C1 counterexample: a MARKET SELL of 5 AAPL submitted to the freshly
started system, whose portfolio is empty so no Position for AAPL
exists, validates with an empty error list and the submission is
answered with 201, not with a 400 mentioning insufficient holdings. -/
theorem c1_counterexample :
    validate_order ⟨some "AAPL", some "SELL", some "MARKET", some 5, none⟩ = (true, []) ∧
    (place_order initState ⟨some "AAPL", some "SELL", some "MARKET", some 5, none⟩).1 =
      PlaceResult.ok := by
  constructor <;> decide

/-- C1 amended: validate_order has no holdings precondition for either
side.  Any SELL whose fields pass the structural checks validates with
an empty error list, for every portfolio state, because the validator
never consults the portfolio. -/
theorem c1_sell_no_holdings_check (sym style : String) (q : ℤ) (pr : Option PValue)
    (hq : 0 < q)
    (hstyle : style = "MARKET" ∨ style = "LIMIT")
    (hpr : style = "LIMIT" → pr ≠ none)
    (hsym : get_instrument_by_symbol sym ≠ none) :
    validate_order ⟨some sym, some "SELL", some style, some q, pr⟩ = (true, []) := by
  rcases hstyle with hstyle | hstyle <;> subst hstyle
  · simp [validate_order, not_le.mpr hq, hsym]
  · have hpr2 : pr ≠ none := hpr rfl
    simp [validate_order, not_le.mpr hq, hsym, hpr2]

/-- C1 witness: the amended theorem applied to a MARKET SELL of 3
GOOGL. -/
theorem c1_witness :
    validate_order ⟨some "GOOGL", some "SELL", some "MARKET", some 3, none⟩ = (true, []) :=
  c1_sell_no_holdings_check "GOOGL" "MARKET" 3 none (by decide) (Or.inl rfl)
    (fun h => absurd h (by decide)) (by decide)

/-! Claim C7.  For LIMIT orders the validator checks only that a price
field is present, never that it is numeric. -/

/-- C7 counterexample: a LIMIT BUY whose price is the non-numeric
string abc passes validation with an empty error list, although the
claim says a non-numeric price must be rejected with an error
mentioning price. -/
theorem c7_counterexample :
    validate_order ⟨some "AAPL", some "BUY", some "LIMIT", some 5, some (.str "abc")⟩ =
      (true, []) := by
  decide

/-- C7 amended: for a LIMIT order with all other fields valid, the
validator rejects with the price error exactly when the price field is
absent; any present price value, numeric or not, passes. -/
theorem c7_limit_price_presence_only (sym side : String) (q : ℤ)
    (hq : 0 < q)
    (hside : side = "BUY" ∨ side = "SELL")
    (hsym : get_instrument_by_symbol sym ≠ none) :
    validate_order ⟨some sym, some side, some "LIMIT", some q, none⟩ =
      (false, ["Price is mandatory for LIMIT orders"]) ∧
    ∀ v : PValue, validate_order ⟨some sym, some side, some "LIMIT", some q, some v⟩ =
      (true, []) := by
  rcases hside with hside | hside <;> subst hside <;>
    exact ⟨by simp [validate_order, not_le.mpr hq, hsym],
      fun v => by simp [validate_order, not_le.mpr hq, hsym]⟩

/-- C7 witness: the amended theorem applied to LIMIT BUY orders of 2
MSFT, without a price and with the non-numeric price abc. -/
theorem c7_witness :
    validate_order ⟨some "MSFT", some "BUY", some "LIMIT", some 2, none⟩ =
      (false, ["Price is mandatory for LIMIT orders"]) ∧
    validate_order ⟨some "MSFT", some "BUY", some "LIMIT", some 2, some (.str "abc")⟩ =
      (true, []) :=
  ⟨(c7_limit_price_presence_only "MSFT" "BUY" 2 (by decide) (Or.inl rfl) (by decide)).1,
   (c7_limit_price_presence_only "MSFT" "BUY" 2 (by decide) (Or.inl rfl) (by decide)).2
     (.str "abc")⟩

/-! Claim C2.  The BUY branch of the ledger implements weighted-average
cost accounting. -/

/-- C2: after a BUY of quantity q at numeric price x, the position for
the symbol holds oldQty plus q shares at average price
(oldQty * oldAvg + q * x) / (oldQty + q), an absent position counting
as zero quantity and zero average.  The nonnegativity hypothesis on the
stored quantity holds in every reachable state. -/
theorem c2_buy_weighted_average (p : Portfolio) (s : String) (q : ℤ) (x : ℚ)
    (hq : 0 < q)
    (hnn : 0 ≤ ((pfLookup p s).map Holding.quantity).getD 0) :
    (update_portfolio p s "BUY" q (.num x)).raised = false ∧
    ∃ h2, pfLookup (update_portfolio p s "BUY" q (.num x)).portfolio s = some h2 ∧
      h2.quantity = ((pfLookup p s).map Holding.quantity).getD 0 + q ∧
      h2.averagePrice =
        ((((pfLookup p s).map Holding.quantity).getD 0 : ℚ) *
            ((pfLookup p s).map Holding.averagePrice).getD 0 + (q : ℚ) * x) /
          ((((pfLookup p s).map Holding.quantity).getD 0 : ℚ) + (q : ℚ)) := by
  cases hfp : pfLookup p s with
  | none =>
    rw [update_portfolio_buy_new p s q x hfp]
    refine ⟨rfl, ⟨s, q, _, _⟩, pfLookup_pfSet_mk _ s _ _ _, ?_, ?_⟩
    · simp [hfp]
    · simp only [hfp, Option.map_none, Option.getD_none, if_pos hq]
      norm_num
  | some h =>
    rw [update_portfolio_buy_old p s q x h hfp]
    have hq0 : 0 ≤ h.quantity := by simpa [hfp] using hnn
    refine ⟨rfl, ⟨s, h.quantity + q, _, _⟩, pfLookup_pfSet_mk _ s _ _ _, ?_, ?_⟩
    · simp [hfp]
    · simp only [hfp, Option.map_some, Option.getD_some, if_pos (by omega : 0 < h.quantity + q)]
      push_cast
      norm_num

/-- C2 witness: buying 10 AAPL at price 351/2 into the empty portfolio,
then 10 more at price 300 into the resulting portfolio. -/
theorem c2_witness :
    ((0:ℤ) < 10 ∧ 0 ≤ ((pfLookup [] "AAPL").map Holding.quantity).getD 0) ∧
    ((update_portfolio [] "AAPL" "BUY" 10 (.num (351/2))).raised = false ∧
    ∃ h2, pfLookup (update_portfolio [] "AAPL" "BUY" 10 (.num (351/2))).portfolio "AAPL" =
        some h2 ∧
      h2.quantity = ((pfLookup [] "AAPL").map Holding.quantity).getD 0 + 10 ∧
      h2.averagePrice =
        ((((pfLookup [] "AAPL").map Holding.quantity).getD 0 : ℚ) *
            ((pfLookup [] "AAPL").map Holding.averagePrice).getD 0 + (10 : ℚ) * (351/2)) /
          ((((pfLookup [] "AAPL").map Holding.quantity).getD 0 : ℚ) + (10 : ℚ))) :=
  ⟨⟨by decide, by decide⟩, c2_buy_weighted_average [] "AAPL" 10 (351/2) (by decide) (by decide)⟩

/-! Claim C3.  A SELL strictly below the held quantity keeps the
average price, decrements the quantity, and recomputes the invested
total as quantity times average price. -/

/-- C3: selling q shares out of a position holding strictly more than q
leaves the position with the quantity reduced by q, the average price
unchanged, and totalInvested equal to the new quantity times that
unchanged average price; the submitted price value is irrelevant. -/
theorem c3_sell_partial (p : Portfolio) (s : String) (q : ℤ) (pr : PValue) (h : Holding)
    (hf : pfLookup p s = some h) (hlt : q < h.quantity) :
    (update_portfolio p s "SELL" q pr).raised = false ∧
    pfLookup (update_portfolio p s "SELL" q pr).portfolio s =
      some ⟨s, h.quantity - q, h.averagePrice,
        ((h.quantity - q : ℤ) : ℚ) * h.averagePrice⟩ := by
  rw [update_portfolio_sell_old p s q pr h hf, if_neg (by omega : ¬ h.quantity - q ≤ 0)]
  exact ⟨rfl, pfLookup_pfSet_mk p s _ _ _⟩

/-- C3 witness: selling 4 out of a 10-share AAPL position held at
average price 351/2. -/
theorem c3_witness :
    (pfLookup [⟨"AAPL", 10, 351/2, 1755⟩] "AAPL" = some ⟨"AAPL", 10, 351/2, 1755⟩ ∧
      (4:ℤ) < 10) ∧
    ((update_portfolio [⟨"AAPL", 10, 351/2, 1755⟩] "AAPL" "SELL" 4 (.num 200)).raised = false ∧
    pfLookup (update_portfolio [⟨"AAPL", 10, 351/2, 1755⟩] "AAPL" "SELL" 4
        (.num 200)).portfolio "AAPL" =
      some ⟨"AAPL", 10 - 4, 351/2, ((10 - 4 : ℤ) : ℚ) * (351/2)⟩) :=
  ⟨⟨rfl, by decide⟩,
   c3_sell_partial [⟨"AAPL", 10, 351/2, 1755⟩] "AAPL" 4 (.num 200)
     ⟨"AAPL", 10, 351/2, 1755⟩ rfl (by decide)⟩

theorem update_portfolio_sell_new_gen (p : Portfolio) (s : String) (q : ℤ) (pr : PValue)
    (hf : pfLookup p s = none) :
    update_portfolio p s "SELL" q pr =
      if (0 : ℤ) - q ≤ 0 then ⟨pfDelete (pfSet p ⟨s, 0, 0, 0⟩) s, false⟩
      else ⟨pfSet (pfSet p ⟨s, 0, 0, 0⟩) ⟨s, 0 - q, 0, ((0 - q : ℤ) : ℚ) * 0⟩, false⟩ := by
  cases pr <;>
    simp only [update_portfolio, hf, reduceCtorEq, reduceIte,
      pfLookup_pfSet_mk, Option.getD_some,
      string_sell_not_buy, string_sell_is_sell, if_false, if_true]

theorem update_portfolio_other_type (p : Portfolio) (s ot : String) (q : ℤ) (pr : PValue)
    (hb : ot ≠ "BUY") (hs : ot ≠ "SELL") :
    update_portfolio p s ot q pr =
      ⟨if pfLookup p s = none then pfSet p ⟨s, 0, 0, 0⟩ else p, false⟩ := by
  simp only [update_portfolio, if_neg hb, if_neg hs]

/-- The portfolio update for one symbol never changes the entry stored
under any other symbol. -/
theorem update_portfolio_frame (p : Portfolio) (sym ot : String) (q : ℤ) (pr : PValue)
    (s : String) (hs : s ≠ sym) :
    pfLookup (update_portfolio p sym ot q pr).portfolio s = pfLookup p s := by
  have hp1 : ∀ p2 : Portfolio, pfLookup (pfSet p2 ⟨sym, 0, 0, 0⟩) s = pfLookup p2 s :=
    fun p2 => pfLookup_pfSet_mk_ne p2 sym s 0 0 0 hs
  by_cases hb : ot = "BUY"
  · subst hb
    cases hf : pfLookup p sym with
    | none =>
      cases pr with
      | num x =>
        rw [update_portfolio_buy_new p sym q x hf]
        simp only
        rw [pfLookup_pfSet_mk_ne _ sym s _ _ _ hs, hp1]
      | str msg =>
        rw [update_portfolio_buy_str_new p sym q msg hf]
        exact hp1 p
    | some h =>
      cases pr with
      | num x =>
        rw [update_portfolio_buy_old p sym q x h hf]
        simp only
        rw [pfLookup_pfSet_mk_ne _ sym s _ _ _ hs]
      | str msg =>
        rw [update_portfolio_buy_str_old p sym q msg h hf]
  · by_cases hsell : ot = "SELL"
    · subst hsell
      cases hf : pfLookup p sym with
      | none =>
        rw [update_portfolio_sell_new_gen p sym q pr hf]
        split
        · simp only
          rw [pfLookup_pfDelete_ne _ sym s (fun h2 => hs h2), hp1]
        · simp only
          rw [pfLookup_pfSet_mk_ne _ sym s _ _ _ hs, hp1]
      | some h =>
        rw [update_portfolio_sell_old p sym q pr h hf]
        split
        · simp only
          rw [pfLookup_pfDelete_ne _ sym s (fun h2 => hs h2)]
        · simp only
          rw [pfLookup_pfSet_mk_ne _ sym s _ _ _ hs]
    · rw [update_portfolio_other_type p sym ot q pr hb hsell]
      simp only
      split
      · exact hp1 p
      · rfl

/-- One ledger update as invoked by the execution engine: the arguments
update_portfolio receives for one executed order. -/
structure LedgerOp where
  symbol : String
  order_type : String
  quantity : ℤ
  price : PValue

/-- The portfolio after a sequence of further ledger updates. -/
def applyOps (p : Portfolio) (ops : List LedgerOp) : Portfolio :=
  ops.foldl
    (fun acc op => (update_portfolio acc op.symbol op.order_type op.quantity op.price).portfolio)
    p

/-- A symbol absent from the portfolio stays absent under any ledger
update that is not a BUY for it with the quantity of a validated order:
updates for other symbols never touch its entry, and a SELL for the
absent symbol inserts a zero entry that the same call deletes again. -/
theorem pfLookup_none_step (p : Portfolio) (s : String) (op : LedgerOp)
    (hnone : pfLookup p s = none)
    (hop : op.symbol ≠ s ∨ (op.order_type = "SELL" ∧ 0 < op.quantity)) :
    pfLookup (update_portfolio p op.symbol op.order_type op.quantity op.price).portfolio s =
      none := by
  by_cases hsym : op.symbol = s
  · rcases hop with hop | ⟨hsell, hq⟩
    · exact absurd hsym hop
    · rw [hsym, hsell]
      rw [update_portfolio_sell_new p s op.quantity op.price (hsym ▸ hnone) hq]
      exact pfLookup_pfDelete_self _ s
  · rw [update_portfolio_frame p op.symbol op.order_type op.quantity op.price s
      (fun h2 => hsym h2.symm)]
    exact hnone

theorem pfLookup_none_applyOps (ops : List LedgerOp) (p : Portfolio) (s : String)
    (hnone : pfLookup p s = none)
    (hops : ∀ op ∈ ops, op.symbol ≠ s ∨ (op.order_type = "SELL" ∧ 0 < op.quantity)) :
    pfLookup (applyOps p ops) s = none := by
  induction ops generalizing p with
  | nil => exact hnone
  | cons op rest ih =>
    exact ih _ (pfLookup_none_step p s op hnone (hops op (by simp)))
      (fun o ho => hops o (by simp [ho]))

theorem portfolio_report_not_mem (p : Portfolio) (s : String)
    (hnone : pfLookup p s = none) :
    ∀ e ∈ portfolio_report p, e.symbol ≠ s := by
  intro e he
  rcases List.mem_map.mp he with ⟨h, hh, hhe⟩
  have : e.symbol = h.symbol := by rw [← hhe]
  rw [this]
  exact pfLookup_eq_none.mp hnone h hh

/-! Claim C4.  A SELL of the full held quantity removes the position,
and the symbol stays out of every subsequent portfolio report until a
BUY for it happens. -/

/-- C4: selling exactly the held quantity deletes the position; after
any further sequence of validated ledger updates none of which is a BUY
for the symbol, the symbol still has no position and appears in no row
of the portfolio report. -/
theorem c4_sell_all_removes_position (p : Portfolio) (s : String) (pr : PValue) (h : Holding)
    (hf : pfLookup p s = some h) (_hq : 0 < h.quantity) :
    (update_portfolio p s "SELL" h.quantity pr).raised = false ∧
    pfLookup (update_portfolio p s "SELL" h.quantity pr).portfolio s = none ∧
    ∀ ops : List LedgerOp,
      (∀ op ∈ ops, op.symbol ≠ s ∨ (op.order_type = "SELL" ∧ 0 < op.quantity)) →
      pfLookup (applyOps (update_portfolio p s "SELL" h.quantity pr).portfolio ops) s = none ∧
      ∀ e ∈ portfolio_report
        (applyOps (update_portfolio p s "SELL" h.quantity pr).portfolio ops), e.symbol ≠ s := by
  have hup : update_portfolio p s "SELL" h.quantity pr = ⟨pfDelete p s, false⟩ := by
    rw [update_portfolio_sell_old p s h.quantity pr h hf]
    rw [if_pos (by omega : h.quantity - h.quantity ≤ 0)]
  rw [hup]
  have hdel : pfLookup (pfDelete p s) s = none := pfLookup_pfDelete_self p s
  refine ⟨rfl, hdel, fun ops hops => ?_⟩
  have hnone := pfLookup_none_applyOps ops (pfDelete p s) s hdel hops
  exact ⟨hnone, portfolio_report_not_mem _ s hnone⟩

/-- C4 witness: selling all 7 TSLA shares of a one-position portfolio,
followed by a BUY of a different symbol and a SELL of TSLA itself. -/
theorem c4_witness :
    (pfLookup [⟨"TSLA", 7, 245, 1715⟩] "TSLA" = some ⟨"TSLA", 7, 245, 1715⟩ ∧
      (0:ℤ) < (7:ℤ)) ∧
    ((update_portfolio [⟨"TSLA", 7, 245, 1715⟩] "TSLA" "SELL" 7 (.num 250)).raised = false ∧
    pfLookup (update_portfolio [⟨"TSLA", 7, 245, 1715⟩] "TSLA" "SELL" 7
        (.num 250)).portfolio "TSLA" = none ∧
    (pfLookup (applyOps (update_portfolio [⟨"TSLA", 7, 245, 1715⟩] "TSLA" "SELL" 7
        (.num 250)).portfolio
        [⟨"AAPL", "BUY", 2, .num 100⟩, ⟨"TSLA", "SELL", 1, .num 9⟩]) "TSLA" = none ∧
      ∀ e ∈ portfolio_report (applyOps (update_portfolio [⟨"TSLA", 7, 245, 1715⟩] "TSLA"
          "SELL" 7 (.num 250)).portfolio
          [⟨"AAPL", "BUY", 2, .num 100⟩, ⟨"TSLA", "SELL", 1, .num 9⟩]), e.symbol ≠ "TSLA")) := by
  refine ⟨⟨rfl, by decide⟩, ?_⟩
  have h := c4_sell_all_removes_position [⟨"TSLA", 7, 245, 1715⟩] "TSLA" (.num 250)
    ⟨"TSLA", 7, 245, 1715⟩ rfl (by decide)
  exact ⟨h.1, h.2.1, h.2.2
    [⟨"AAPL", "BUY", 2, .num 100⟩, ⟨"TSLA", "SELL", 1, .num 9⟩]
    (by
      intro op hop
      simp only [List.mem_cons, List.not_mem_nil, or_false] at hop
      rcases hop with rfl | rfl
      · exact Or.inl (by decide)
      · exact Or.inr ⟨rfl, by decide⟩)⟩

theorem pfSet_absent (p : Portfolio) (h0 : Holding)
    (hf : pfLookup p h0.symbol = none) : pfSet p h0 = p ++ [h0] := by
  unfold pfSet
  rw [if_neg]
  intro hc
  obtain ⟨x, hx, hxs⟩ := List.any_eq_true.mp hc
  exact pfLookup_eq_none.mp hf x hx (by simpa using hxs)

theorem pfSet_snoc (p : Portfolio) (h0 h1 : Holding) (s : String)
    (hf : pfLookup p s = none) (h0s : h0.symbol = s) (h1s : h1.symbol = s) :
    pfSet (p ++ [h0]) h1 = p ++ [h1] := by
  unfold pfSet
  rw [if_pos]
  · rw [List.map_append]
    congr 1
    · conv_rhs => rw [← List.map_id p]
      apply List.map_congr_left
      intro x hx
      rw [if_neg, id]
      intro hc
      exact pfLookup_eq_none.mp hf x hx (by rw [← h1s]; simpa using hc)
    · simp [h0s, h1s]
  · exact List.any_eq_true.mpr ⟨h0, by simp, by simp [h0s, h1s]⟩

/-! Claim C8.  The accounting invariant: averagePrice equals
totalInvested divided by quantity on every position with positive
quantity, in the initial state and after every ledger update for a
validated order. -/

/-- C8: the empty starting portfolio satisfies the invariant, and every
update_portfolio call for a BUY or SELL preserves it, whatever the
price value and quantity. -/
theorem c8_average_price_invariant :
    pfInvariant [] ∧
    ∀ (p : Portfolio) (s ot : String) (q : ℤ) (pr : PValue),
      (ot = "BUY" ∨ ot = "SELL") → pfInvariant p →
      pfInvariant (update_portfolio p s ot q pr).portfolio := by
  refine ⟨fun h hm => absurd hm (List.not_mem_nil h), ?_⟩
  intro p s ot q pr hot hp h2 hmem hpos
  rcases hot with rfl | rfl
  · cases pr with
    | num x =>
      cases hf : pfLookup p s with
      | none =>
        rw [update_portfolio_buy_new p s q x hf] at hmem
        simp only at hmem
        rcases mem_pfSet hmem with rfl | hmem2
        · simp only at hpos ⊢
          rw [if_pos hpos]
        · rcases mem_pfSet hmem2 with rfl | hmem3
          · exact absurd hpos (by simp)
          · exact hp h2 hmem3 hpos
      | some h =>
        rw [update_portfolio_buy_old p s q x h hf] at hmem
        simp only at hmem
        rcases mem_pfSet hmem with rfl | hmem2
        · simp only at hpos ⊢
          rw [if_pos hpos]
        · exact hp h2 hmem2 hpos
    | str msg =>
      cases hf : pfLookup p s with
      | none =>
        rw [update_portfolio_buy_str_new p s q msg hf] at hmem
        simp only at hmem
        rcases mem_pfSet hmem with rfl | hmem2
        · exact absurd hpos (by simp)
        · exact hp h2 hmem2 hpos
      | some h =>
        rw [update_portfolio_buy_str_old p s q msg h hf] at hmem
        exact hp h2 hmem hpos
  · cases hf : pfLookup p s with
    | none =>
      rw [update_portfolio_sell_new_gen p s q pr hf] at hmem
      split at hmem
      · simp only at hmem
        rcases mem_pfSet (mem_pfDelete hmem) with rfl | hmem2
        · exact absurd hpos (by simp)
        · exact hp h2 hmem2 hpos
      · simp only at hmem
        rcases mem_pfSet hmem with rfl | hmem2
        · simp only at hpos ⊢
          simp
        · rcases mem_pfSet hmem2 with rfl | hmem3
          · exact absurd hpos (by simp)
          · exact hp h2 hmem3 hpos
    | some h =>
      rw [update_portfolio_sell_old p s q pr h hf] at hmem
      split at hmem
      case isTrue => exact hp h2 (mem_pfDelete hmem) hpos
      case isFalse hgt =>
        simp only at hmem
        rcases mem_pfSet hmem with rfl | hmem2
        · simp only at hpos ⊢
          rw [mul_div_cancel_left₀]
          exact Int.cast_ne_zero.mpr (by omega)
        · exact hp h2 hmem2 hpos

/-- C8 witness: the invariant holds for the empty portfolio and is
preserved by a BUY of 5 AAPL at price 100 applied to the singleton
portfolio of 2 MSFT at average price 300. -/
theorem c8_witness :
    (("BUY" : String) = "BUY" ∨ ("BUY" : String) = "SELL") ∧
    pfInvariant [⟨"MSFT", 2, 300, 600⟩] ∧
    pfInvariant [] ∧
    pfInvariant (update_portfolio [⟨"MSFT", 2, 300, 600⟩] "AAPL" "BUY" 5
      (.num 100)).portfolio :=
  ⟨Or.inl rfl,
   by
     intro h hm hq
     simp only [List.mem_singleton] at hm
     subst hm
     norm_num,
   c8_average_price_invariant.1,
   c8_average_price_invariant.2 [⟨"MSFT", 2, 300, 600⟩] "AAPL" "BUY" 5 (.num 100)
     (Or.inl rfl)
     (by
       intro h hm hq
       simp only [List.mem_singleton] at hm
       subst hm
       norm_num)⟩

/-! Claim C10.  Positions never store a zero or negative quantity - true
for every completed update, but a BUY whose price is a non-numeric
string raises after inserting the zero placeholder, which then stays in
the portfolio. -/

/-- C10 counterexample: a BUY of 5 AAPL with the non-numeric price
string x against the empty portfolio raises a TypeError and leaves a
position with quantity zero stored in the portfolio, so not every
position remaining after a BUY update with positive quantity has
strictly positive quantity. -/
theorem c10_counterexample :
    (update_portfolio [] "AAPL" "BUY" 5 (.str "x")).raised = true ∧
    (update_portfolio [] "AAPL" "BUY" 5 (.str "x")).portfolio = [⟨"AAPL", 0, 0, 0⟩] ∧
    ¬ ∀ h ∈ (update_portfolio [] "AAPL" "BUY" 5 (.str "x")).portfolio, 0 < h.quantity := by
  refine ⟨rfl, rfl, fun hall => ?_⟩
  have hmem : (⟨"AAPL", 0, 0, 0⟩ : Holding) ∈
      (update_portfolio [] "AAPL" "BUY" 5 (.str "x")).portfolio := by
    show (⟨"AAPL", 0, 0, 0⟩ : Holding) ∈ [(⟨"AAPL", 0, 0, 0⟩ : Holding)]
    simp
  have := hall ⟨"AAPL", 0, 0, 0⟩ hmem
  simp at this

/-- C10 amended: after a ledger update for a BUY or SELL of positive
quantity at a numeric price, every remaining position has strictly
positive quantity, provided every position had positive quantity
before; in particular a SELL that would reach zero or below deletes the
position instead of storing it.  The numeric-price proviso is forced by
the counterexample: a BUY with a non-numeric price aborts mid-update
and leaves a zero-quantity placeholder. -/
theorem c10_positive_quantities (p : Portfolio) (s ot : String) (q : ℤ) (x : ℚ)
    (hot : ot = "BUY" ∨ ot = "SELL") (hq : 0 < q)
    (hp : ∀ h ∈ p, 0 < h.quantity) :
    ∀ h2 ∈ (update_portfolio p s ot q (.num x)).portfolio, 0 < h2.quantity := by
  intro h2 hmem
  rcases hot with rfl | rfl
  · cases hf : pfLookup p s with
    | none =>
      rw [update_portfolio_buy_new p s q x hf] at hmem
      simp only at hmem
      rw [pfSet_absent p ⟨s, 0, 0, 0⟩ hf, pfSet_snoc p ⟨s, 0, 0, 0⟩ _ s hf rfl rfl] at hmem
      rcases List.mem_append.mp hmem with hmem2 | hmem2
      · exact hp h2 hmem2
      · simp only [List.mem_singleton] at hmem2
        subst hmem2
        simpa using hq
    | some h =>
      rw [update_portfolio_buy_old p s q x h hf] at hmem
      simp only at hmem
      rcases mem_pfSet hmem with rfl | hmem2
      · have hhq : 0 < h.quantity := hp h (List.mem_of_find?_eq_some hf)
        simp only
        omega
      · exact hp h2 hmem2
  · cases hf : pfLookup p s with
    | none =>
      rw [update_portfolio_sell_new p s q (.num x) hf hq] at hmem
      simp only at hmem
      rw [pfSet_absent p ⟨s, 0, 0, 0⟩ hf] at hmem
      have : h2 ∈ p := by
        have hfil := mem_pfDelete hmem
        rcases List.mem_append.mp hfil with hmem2 | hmem2
        · exact hmem2
        · simp only [List.mem_singleton] at hmem2
          subst hmem2
          exfalso
          have : (⟨s, 0, 0, 0⟩ : Holding) ∈ pfDelete (p ++ [⟨s, 0, 0, 0⟩]) s := hmem
          simp [pfDelete, List.mem_filter] at this
      exact hp h2 this
    | some h =>
      rw [update_portfolio_sell_old p s q (.num x) h hf] at hmem
      split at hmem
      case isTrue => exact hp h2 (mem_pfDelete hmem)
      case isFalse hgt =>
        simp only at hmem
        rcases mem_pfSet hmem with rfl | hmem2
        · simp only
          omega
        · exact hp h2 hmem2

/-- C10 witness: the amended theorem applied to a SELL of the whole
3-share AMZN position at numeric price 155, starting from a
positive-quantity portfolio. -/
theorem c10_witness :
    (("SELL" : String) = "BUY" ∨ ("SELL" : String) = "SELL") ∧ (0:ℤ) < 3 ∧
    ∀ h2 ∈ (update_portfolio [⟨"AMZN", 3, 155, 465⟩] "AMZN" "SELL" 3
      (.num 155)).portfolio, 0 < h2.quantity :=
  ⟨Or.inr rfl, by decide,
   c10_positive_quantities [⟨"AMZN", 3, 155, 465⟩] "AMZN" "SELL" 3 155 (Or.inr rfl)
     (by decide)
     (by
       intro h hm
       simp only [List.mem_singleton] at hm
       subst hm
       decide)⟩

/-! Claim C5.  Execution prices: MARKET orders fill at the catalog
price with any submitted price ignored, LIMIT orders fill at their own
submitted price with no marketability check, and the trade totalValue
is the execution price times the quantity. -/

/-- C5: executing a stored order appends exactly one trade whose price
is the instrument lastTradedPrice for MARKET style (whatever price
value pv the order may carry, it is ignored) and the order price for
any other style (LIMIT after validation), and whose totalValue is that
execution price times the order quantity under Python multiplication.
The hypotheses (order present, instrument known, LIMIT price present)
hold for every validated order. -/
theorem c5_execution_price (st : SysState) (oid : ℕ) (o : Order) (inst : Instrument)
    (pv : PValue)
    (ho : ordLookup st.orders oid = some o)
    (hi : get_instrument_by_symbol o.symbol = some inst)
    (hp : o.orderStyle = "MARKET" ∨ (o.orderStyle ≠ "MARKET" ∧ o.price = some pv)) :
    ∃ t : Trade,
      (execute_order st oid).1.trades = st.trades ++ [t] ∧
      t.orderId = oid ∧
      t.quantity = o.quantity ∧
      t.price = (if o.orderStyle = "MARKET" then .num inst.lastTradedPrice else pv) ∧
      t.totalValue =
        pyMul (if o.orderStyle = "MARKET" then .num inst.lastTradedPrice else pv)
          o.quantity := by
  unfold execute_order
  rw [ho]
  simp only [hi, Option.getD_some]
  rcases hp with hm | ⟨hm, hpr⟩
  · exact ⟨_, rfl, rfl, rfl, by simp [hm], by simp [hm]⟩
  · exact ⟨_, rfl, rfl, rfl, by simp [hm, hpr], by simp [hm, hpr]⟩

/-- C5 witness: executing a stored MARKET BUY of 2 AAPL in a state
holding just that order, with the ignored price argument .num 0. -/
theorem c5_witness :
    ∃ t : Trade,
      (execute_order ⟨[⟨0, "AAPL", "BUY", "MARKET", 2, none, "PLACED", none⟩], [], [], 1⟩
        0).1.trades = [] ++ [t] ∧
      t.orderId = 0 ∧
      t.quantity = (⟨0, "AAPL", "BUY", "MARKET", 2, none, "PLACED", none⟩ : Order).quantity ∧
      t.price = (if (⟨0, "AAPL", "BUY", "MARKET", 2, none, "PLACED", none⟩ : Order).orderStyle =
          "MARKET" then
        .num (⟨"AAPL", "NASDAQ", "STOCK", 175.50⟩ : Instrument).lastTradedPrice else .num 0) ∧
      t.totalValue = pyMul
        (if (⟨0, "AAPL", "BUY", "MARKET", 2, none, "PLACED", none⟩ : Order).orderStyle =
            "MARKET" then
          .num (⟨"AAPL", "NASDAQ", "STOCK", 175.50⟩ : Instrument).lastTradedPrice else .num 0)
        (⟨0, "AAPL", "BUY", "MARKET", 2, none, "PLACED", none⟩ : Order).quantity :=
  c5_execution_price ⟨[⟨0, "AAPL", "BUY", "MARKET", 2, none, "PLACED", none⟩], [], [], 1⟩
    0 ⟨0, "AAPL", "BUY", "MARKET", 2, none, "PLACED", none⟩
    ⟨"AAPL", "NASDAQ", "STOCK", 175.50⟩ (.num 0) rfl rfl (Or.inl rfl)

/-! Claim C6.  All-or-nothing mutation: true for validation rejections,
but false for failures inside the execution path, which leave the order
and trade stored and a placeholder position behind. -/

/-- C6 counterexample: a LIMIT BUY of 5 AAPL with the non-numeric price
string x passes validation, and the TypeError raised inside the
portfolio update is answered with 500; yet afterwards the order store,
the trade store, and the portfolio all differ from their state before
the submission, so the mutations did not happen together-or-not-at-all. -/
theorem c6_counterexample :
    (place_order initState ⟨some "AAPL", some "BUY", some "LIMIT", some 5,
      some (.str "x")⟩).1 = PlaceResult.serverError ∧
    (place_order initState ⟨some "AAPL", some "BUY", some "LIMIT", some 5,
      some (.str "x")⟩).2.orders ≠ initState.orders ∧
    (place_order initState ⟨some "AAPL", some "BUY", some "LIMIT", some 5,
      some (.str "x")⟩).2.trades ≠ initState.trades ∧
    (place_order initState ⟨some "AAPL", some "BUY", some "LIMIT", some 5,
      some (.str "x")⟩).2.portfolio ≠ initState.portfolio := by
  refine ⟨rfl, ?_, ?_, ?_⟩ <;> intro hc <;> cases hc

/-- C6 amended: a submission rejected by validation mutates nothing:
the response is 400 with the validation errors and the order store,
trade store, and portfolio are exactly as before.  (A failure later in
the execution path, by contrast, leaves its earlier mutations in
place, as the counterexample shows.) -/
theorem c6_rejection_mutates_nothing (st : SysState) (d : OrderData)
    (hv : (validate_order d).1 = false) :
    (place_order st d).1 = PlaceResult.rejected (validate_order d).2 ∧
    (place_order st d).2 = st := by
  unfold place_order
  rw [if_pos hv]
  exact ⟨rfl, rfl⟩

/-- C6 witness: submitting an order with no symbol field to the fresh
state is rejected and changes nothing. -/
theorem c6_witness :
    (validate_order ⟨none, some "BUY", some "MARKET", some 1, none⟩).1 = false ∧
    (place_order initState ⟨none, some "BUY", some "MARKET", some 1, none⟩).1 =
      PlaceResult.rejected
        (validate_order ⟨none, some "BUY", some "MARKET", some 1, none⟩).2 ∧
    (place_order initState ⟨none, some "BUY", some "MARKET", some 1, none⟩).2 = initState :=
  ⟨by decide,
   (c6_rejection_mutates_nothing initState ⟨none, some "BUY", some "MARKET", some 1, none⟩
     (by decide)).1,
   (c6_rejection_mutates_nothing initState ⟨none, some "BUY", some "MARKET", some 1, none⟩
     (by decide)).2⟩

/-- The consistency invariant of the order and trade stores: every
stored order id is below the counter and every stored order is
executed, every trade points below the counter and at a stored order,
and every stored order has exactly one trade. -/
def storeInv (st : SysState) : Prop :=
  (∀ o ∈ st.orders, o.orderId < st.nextId ∧ o.status = "EXECUTED") ∧
  (∀ t ∈ st.trades, t.orderId < st.nextId ∧ ∃ o ∈ st.orders, o.orderId = t.orderId) ∧
  (∀ o ∈ st.orders, (st.trades.filter (fun t => t.orderId == o.orderId)).length = 1)

theorem storeInv_step (st : SysState) (d : OrderData) (h : storeInv st) :
    storeInv (place_order st d).2 := by
  by_cases hv : (validate_order d).1 = true
  · have hfr : ∀ o ∈ st.orders, o.orderId < st.nextId := fun o ho => (h.1 o ho).1
    rw [place_order_accepted st d hv hfr]
    refine ⟨?_, ?_, ?_⟩
    · intro o ho
      rcases List.mem_append.mp ho with ho | ho
      · exact ⟨Nat.lt_succ_of_lt (h.1 o ho).1, (h.1 o ho).2⟩
      · simp only [List.mem_singleton] at ho
        subst ho
        exact ⟨Nat.lt_succ_self _, rfl⟩
    · intro t ht
      rcases List.mem_append.mp ht with ht | ht
      · obtain ⟨hlt, o, ho, hoid⟩ := h.2.1 t ht
        exact ⟨Nat.lt_succ_of_lt hlt, o, List.mem_append.mpr (Or.inl ho), hoid⟩
      · simp only [List.mem_singleton] at ht
        subst ht
        exact ⟨Nat.lt_succ_self _, storedOrder d st.nextId,
          List.mem_append.mpr (Or.inr (by simp)), rfl⟩
    · intro o ho
      rw [List.filter_append]
      rcases List.mem_append.mp ho with ho | ho
      · have hne : ¬ ((storedTrade d st.nextId st.trades.length).orderId == o.orderId) = true := by
          simp only [storedTrade, beq_iff_eq]
          exact fun hc => absurd hc.symm (Nat.ne_of_lt (h.1 o ho).1)
        have hnil : List.filter (fun t => t.orderId == o.orderId)
            [storedTrade d st.nextId st.trades.length] = [] := by
          simp only [List.filter_cons, List.filter_nil]
          rw [if_neg hne]
        rw [List.length_append, hnil]
        simpa using h.2.2 o ho
      · simp only [List.mem_singleton] at ho
        subst ho
        have h1 : List.filter (fun t => t.orderId == (storedOrder d st.nextId).orderId)
            st.trades = [] := by
          rw [List.filter_eq_nil_iff]
          intro t ht
          simp only [storedOrder, beq_iff_eq]
          exact fun hc => absurd hc (Nat.ne_of_lt (h.2.1 t ht).1)
        have h2 : List.filter (fun t => t.orderId == (storedOrder d st.nextId).orderId)
            [storedTrade d st.nextId st.trades.length] =
            [storedTrade d st.nextId st.trades.length] := by
          simp [storedTrade, storedOrder]
        rw [h1, h2]
        rfl
  · have hvf : (validate_order d).1 = false := by
      cases hb : (validate_order d).1
      · rfl
      · exact absurd hb hv
    have hst : (place_order st d).2 = st := by
      unfold place_order
      rw [if_pos hvf]
    rw [hst]
    exact h

theorem storeInv_runOrders (ds : List OrderData) : storeInv (runOrders ds) := by
  have hinit : storeInv initState :=
    ⟨fun o ho => absurd ho (List.not_mem_nil o),
     fun t ht => absurd ht (List.not_mem_nil t),
     fun o ho => absurd ho (List.not_mem_nil o)⟩
  suffices hgen : ∀ st, storeInv st →
      storeInv (ds.foldl (fun st2 d => (place_order st2 d).2) st) from hgen initState hinit
  induction ds with
  | nil => exact fun st h => h
  | cons d rest ih => exact fun st h => ih _ (storeInv_step st d h)

/-! Claim C9.  In every reachable state, each trade references a stored
order and each executed order has exactly one trade. -/

/-- C9: after any sequence of order submissions starting from the empty
state, every trade in the trade store carries the orderId of an order
present in the order store, and every order whose status is EXECUTED
has exactly one trade carrying its orderId. -/
theorem c9_trade_order_bijection (ds : List OrderData) :
    (∀ t ∈ (runOrders ds).trades, ∃ o ∈ (runOrders ds).orders, o.orderId = t.orderId) ∧
    ∀ o ∈ (runOrders ds).orders, o.status = "EXECUTED" →
      ((runOrders ds).trades.filter (fun t => t.orderId == o.orderId)).length = 1 := by
  have h := storeInv_runOrders ds
  exact ⟨fun t ht => (h.2.1 t ht).2, fun o ho _ => h.2.2 o ho⟩

/-- C9 witness: after submitting one MARKET BUY of 10 AAPL, the single
stored trade points at the single stored order, and that executed order
has exactly one trade. -/
theorem c9_witness :
    ((⟨0, 0, "AAPL", "BUY", 10, .num 175.50, pyMul (.num 175.50) 10⟩ : Trade) ∈
      (runOrders [⟨some "AAPL", some "BUY", some "MARKET", some 10, none⟩]).trades ∧
     (⟨0, "AAPL", "BUY", "MARKET", 10, none, "EXECUTED", some (.num 175.50)⟩ : Order) ∈
      (runOrders [⟨some "AAPL", some "BUY", some "MARKET", some 10, none⟩]).orders) ∧
    (∃ o ∈ (runOrders [⟨some "AAPL", some "BUY", some "MARKET", some 10, none⟩]).orders,
      o.orderId =
        (⟨0, 0, "AAPL", "BUY", 10, .num 175.50, pyMul (.num 175.50) 10⟩ : Trade).orderId) ∧
    ((runOrders [⟨some "AAPL", some "BUY", some "MARKET", some 10, none⟩]).trades.filter
      (fun t => t.orderId ==
        (⟨0, "AAPL", "BUY", "MARKET", 10, none, "EXECUTED",
          some (.num 175.50)⟩ : Order).orderId)).length = 1 := by
  have htm : (⟨0, 0, "AAPL", "BUY", 10, .num 175.50, pyMul (.num 175.50) 10⟩ : Trade) ∈
      (runOrders [⟨some "AAPL", some "BUY", some "MARKET", some 10, none⟩]).trades := by
    show (⟨0, 0, "AAPL", "BUY", 10, .num 175.50, pyMul (.num 175.50) 10⟩ : Trade) ∈
      [(⟨0, 0, "AAPL", "BUY", 10, .num 175.50, pyMul (.num 175.50) 10⟩ : Trade)]
    simp
  have hom : (⟨0, "AAPL", "BUY", "MARKET", 10, none, "EXECUTED",
      some (.num 175.50)⟩ : Order) ∈
      (runOrders [⟨some "AAPL", some "BUY", some "MARKET", some 10, none⟩]).orders := by
    show (⟨0, "AAPL", "BUY", "MARKET", 10, none, "EXECUTED", some (.num 175.50)⟩ : Order) ∈
      [(⟨0, "AAPL", "BUY", "MARKET", 10, none, "EXECUTED", some (.num 175.50)⟩ : Order)]
    simp
  have h := c9_trade_order_bijection [⟨some "AAPL", some "BUY", some "MARKET", some 10, none⟩]
  exact ⟨⟨htm, hom⟩, h.1 _ htm, h.2 _ hom rfl⟩
